import Mathlib

/-!
# Verification of the snarkVM field-division circuit and execution container

This file embeds, in Lean 4, the parts of the snarkVM repository needed to
settle the claims about:

* `src/circuit/types/field/src/div.rs` — the division operator compiler over
  constrained field elements (`DivAssign::div_assign`, the four `Div` forms,
  the `Metrics` resource count and the `OutputMode` predicate);
* `src/synthesizer/src/process/stack/execution/mod.rs` — the `Execution`
  container and its accessors;
* the `Network::halt` default from `src/console/network/src/lib.rs`, which
  panics: halting is modelled as a dedicated non-recoverable result variant,
  kept separate from the recoverable `Except` channel used by `Execution`.

The field of native values is an arbitrary `Field F` with decidable equality,
matching the generic `Environment` base field.  Machine integers (`usize`)
are modelled as `Nat` with explicit wrap-around `% 2 ^ 64` where overflow
matters (release semantics of Rust arithmetic).

Backend primitives invoked by `div.rs` but whose sources are not part of the
repository snapshot (`E::assert`, the `is_zero` gadget, the `witness!`
allocation, `E::enforce`, constant allocation on `Field::inverse`) are
modelled from the specification; each such definition carries a doc comment
beginning `Modelled from the spec:`.
-/

namespace SnarkVM

/-- The mode (visibility classification) of a circuit value:
`Constant` (known to all), `Public` (known to the verifier),
`Private` (known only to the prover). -/
inductive Mode where
  | Constant
  | Public
  | Private
deriving DecidableEq, Repr

/-- `Mode::is_constant`. -/
def Mode.is_constant : Mode → Bool
  | Mode.Constant => true
  | _ => false

/-- A constrained field element: a mode paired with its native value.
The native value is kept eagerly here (the source's lazy closure is always
resolvable in the situations the claims quantify over: "native values
concretely known"); `eject_value` reads it. -/
structure FieldElt (F : Type) where
  mode : Mode
  value : F
deriving DecidableEq

/-- `Eject::eject_value` — the native value of a field element. -/
def FieldElt.eject_value {F : Type} (a : FieldElt F) : F := a.value

/-- `Eject::eject_mode` — the mode of a field element. -/
def FieldElt.eject_mode {F : Type} (a : FieldElt F) : Mode := a.mode

/-- `is_constant` on a field element checks its mode. -/
def FieldElt.is_constant {F : Type} (a : FieldElt F) : Bool := a.mode.is_constant

/-- The backend ("Environment") tallies for one synthesis run: counts of
constant / public / private variables, number of registered constraints, and
whether every registered constraint holds on the current witness values. -/
structure CircuitState where
  numConstants : Nat
  numPublic : Nat
  numPrivate : Nat
  numConstraints : Nat
  satisfied : Bool
deriving DecidableEq

/-- A fresh backend state: no variables, no constraints, satisfied. -/
def CircuitState.init : CircuitState :=
  { numConstants := 0, numPublic := 0, numPrivate := 0, numConstraints := 0,
    satisfied := true }

/-- The outcome of synthesizing one operation: either a fatal halt
(`E::halt`, a panic — non-recoverable, distinct from the `Except` channel
used by library-level code), or a produced field element together with the
updated backend state. -/
inductive SynthResult (F : Type) where
  | halted (message : String)
  | done (output : FieldElt F) (state : CircuitState)
deriving DecidableEq

section CircuitOps

variable {F : Type} [Field F] [DecidableEq F]

/-- Modelled from the spec: `Field::inverse` on a `Constant` operand performs
native field inversion and materializes the result as a new constant; this
costs one constant-side representation and allocates no variables and no
constraints (spec sections 4.2 and 4.4).  The caller (`div_assign`) has
already ruled out a zero divisor, so the inversion is total here. -/
def inverseConstant (other : FieldElt F) (s : CircuitState) :
    FieldElt F × CircuitState :=
  (⟨Mode.Constant, (other.eject_value)⁻¹⟩,
   { s with numConstants := s.numConstants + 1 })

/-- Modelled from the spec: `*self *= c` where `c` is a constant scales the
existing representation of `self`: no variable allocation and no constraint.
The resulting mode follows the rule of spec section 4.1: a constant stays
constant; scaling by the multiplicative identity preserves the mode; scaling
by any other constant is conservatively classified `Private`. -/
def mulAssignConstant (self : FieldElt F) (c : F) : FieldElt F :=
  { mode :=
      if self.mode = Mode.Constant then Mode.Constant
      else if c = 1 then self.mode
      else Mode.Private,
    value := self.value * c }

/-- Modelled from the spec: `E::assert(!other.is_zero())` on a non-constant
field element.  The `is_zero` gadget decomposes into two auxiliary private
variables (the zero-indicator bit and the candidate inverse) and four
constraints including the final assertion — the split is inferred from the
spec's total of three private variables and five constraints for the whole
non-constant division (section 4.4), minus the quotient witness variable and
the quotient-binding constraint.  The registered constraints hold on the
current witness values exactly when the native value is non-zero. -/
def assertNonzero (other : FieldElt F) (s : CircuitState) : CircuitState :=
  { s with
      numPrivate := s.numPrivate + 2,
      numConstraints := s.numConstraints + 4,
      satisfied := s.satisfied && decide (other.eject_value ≠ 0) }

/-- The quotient witness of `div_assign` (source, div.rs lines 76–79): its
native value is `self / other`, except that when `other`'s native value is
zero it falls back to `self`'s native value ("a band-aid to ensure that we do
not take the inverse of zero").  Modelled from the spec: the `witness!`
allocation creates one fresh private variable. -/
def witnessQuotient (self other : FieldElt F) (s : CircuitState) :
    FieldElt F × CircuitState :=
  (⟨Mode.Private,
    if other.eject_value = 0 then self.eject_value
    else self.eject_value / other.eject_value⟩,
   { s with numPrivate := s.numPrivate + 1 })

/-- Modelled from the spec: `E::enforce(|| (a, b, c))` registers one
constraint `a * b == c`; a violated constraint does not raise — it clears the
backend's satisfaction flag. -/
def enforceMulEq (a b c : FieldElt F) (s : CircuitState) : CircuitState :=
  { s with
      numConstraints := s.numConstraints + 1,
      satisfied :=
        s.satisfied && decide (a.eject_value * b.eject_value = c.eject_value) }

/-- `DivAssign::div_assign` (source, div.rs lines 59–90):
* a constant zero divisor halts ("Attempted to divide by zero.");
* a constant non-zero divisor multiplies by the native inverse;
* a non-constant divisor asserts non-zeroness, witnesses the quotient and
  enforces `quotient * other == self`, the quotient becoming the output. -/
def div_assign (self other : FieldElt F) (s : CircuitState) : SynthResult F :=
  if other.is_constant then
    if other.eject_value = 0 then
      SynthResult.halted "Attempted to divide by zero."
    else
      let p := inverseConstant other s
      SynthResult.done (mulAssignConstant self p.1.value) p.2
  else
    let s₁ := assertNonzero other s
    let p := witnessQuotient self other s₁
    let s₃ := enforceMulEq p.1 other self p.2
    SynthResult.done p.1 s₃

/-- `impl Div<&Field> for &Field` (source, div.rs lines 43–51): clone `self`
and apply the by-reference compound assignment. -/
def div_ref_ref (a b : FieldElt F) (s : CircuitState) : SynthResult F :=
  div_assign a b s

/-- `impl Div<&Field> for Field` (source, div.rs lines 27–33):
delegates to `&self / other`. -/
def div_val_ref (a b : FieldElt F) (s : CircuitState) : SynthResult F :=
  div_ref_ref a b s

/-- `impl Div<Field> for Field` (source, div.rs lines 19–25):
delegates to `self / &other`. -/
def div_val_val (a b : FieldElt F) (s : CircuitState) : SynthResult F :=
  div_val_ref a b s

/-- `impl Div<Field> for &Field` (source, div.rs lines 35–41):
delegates to `self / &other`. -/
def div_ref_val (a b : FieldElt F) (s : CircuitState) : SynthResult F :=
  div_ref_ref a b s

/-- `impl DivAssign<Self> for Field` (source, div.rs lines 53–57):
delegates to the by-reference compound assignment. -/
def div_assign_val (a b : FieldElt F) (s : CircuitState) : SynthResult F :=
  div_assign a b s

end CircuitOps

/-- `Count` — the 4-tuple of resources an operation consumes: constants,
public variables, private variables, constraints (spec section 3; the
source's `Count::is(a, b, c, d)` exact-measurement form). -/
structure Count where
  numConstants : Nat
  numPublic : Nat
  numPrivate : Nat
  numConstraints : Nat
deriving DecidableEq

/-- `Count::is` — an exact resource count. -/
def Count.is (a b c d : Nat) : Count :=
  ⟨a, b, c, d⟩

/-- `Metrics<dyn Div>::count` (source, div.rs lines 95–100): the resource
count as a function of the operand mode pair. -/
def div_count : Mode × Mode → Count
  | (Mode.Constant, Mode.Constant) | (_, Mode.Constant) => Count.is 1 0 0 0
  | (_, _) => Count.is 0 0 3 5

/-- `CircuitType<Field<E>>` — the case type fed to the output-mode predicate.
Modelled from the spec (section 3): an operand is its mode, where a
`Constant` operand additionally carries its known native value. -/
inductive CircuitType (F : Type) where
  | Constant (value : F)
  | Public
  | Private
deriving DecidableEq

/-- `CircuitType::mode`. -/
def CircuitType.mode {F : Type} : CircuitType F → Mode
  | CircuitType.Constant _ => Mode.Constant
  | CircuitType.Public => Mode.Public
  | CircuitType.Private => Mode.Private

/-- `OutputMode<dyn Div>::output_mode` (source, div.rs lines 106–118).
The `Except.error` branch is the source's `E::halt("The constant is required
to determine the output mode of Public + Constant")`. -/
def div_output_mode {F : Type} [One F] [DecidableEq F]
    (case : CircuitType F × CircuitType F) : Except String Mode :=
  match case.1.mode, case.2.mode with
  | Mode.Constant, Mode.Constant => Except.ok Mode.Constant
  | Mode.Public, Mode.Constant =>
    match case.2 with
    | CircuitType.Constant c =>
      if c = 1 then Except.ok Mode.Public else Except.ok Mode.Private
    | _ =>
      Except.error
        "The constant is required to determine the output mode of Public + Constant"
  | _, _ => Except.ok Mode.Private

/-! ## The `Execution` container
(`src/synthesizer/src/process/stack/execution/mod.rs`)

`Transition<N>` is an external opaque container; `Execution` uses only its
identity (`t.id()`, the transition ID, keyed into an `IndexMap`) and its
payload as an opaque value.  `IndexMap` is modelled as an association list in
insertion order: inserting an existing key replaces the value in place,
inserting a fresh key appends.  `usize` arithmetic wraps at `2 ^ 64`. -/

/-- Modelled from the spec: a transition is an opaque value with a transition
ID (`t.id()`); the payload stands in for the rest of its data. -/
structure Transition where
  id : Nat
  payload : Nat
deriving DecidableEq

/-- `IndexMap::insert`: replace in place when the key is present, append
otherwise. -/
def indexMapInsert (m : List (Nat × Transition)) (k : Nat) (v : Transition) :
    List (Nat × Transition) :=
  if m.any (fun p => p.1 = k) then
    m.map (fun p => if p.1 = k then (k, v) else p)
  else
    m ++ [(k, v)]

/-- `transitions.into_iter().map(|t| (*t.id(), t)).collect::<IndexMap<_, _>>()`. -/
def collectByTransitionId (ts : List Transition) : List (Nat × Transition) :=
  ts.foldl (fun m t => indexMapInsert m t.id t) []

/-- Wrapping (release-semantics) subtraction on 64-bit `usize` values. -/
def usizeSub (a b : Nat) : Nat :=
  (a + (2 ^ 64 - b % 2 ^ 64)) % 2 ^ 64

/-- `Execution<N>`: an edition (u16) and the transitions keyed by transition
ID in insertion order. -/
structure Execution where
  edition : Nat
  transitions : List (Nat × Transition)
deriving DecidableEq

/-- `Execution::from(edition, transitions)` (source, mod.rs lines 41–49).
The network's `N::EDITION` constant is not part of the snapshot, so it is
passed explicitly as `netEdition`; the checks run in source order: first the
non-empty check, then the edition comparison. -/
def Execution.from' (netEdition edition : Nat) (ts : List Transition) :
    Except String Execution :=
  if ts.isEmpty then
    Except.error "Execution cannot initialize from empty list of transitions"
  else if edition = netEdition then
    Except.ok ⟨edition, collectByTransitionId ts⟩
  else
    Except.error "Execution cannot initialize with a different edition"

/-- `Execution::len`. -/
def Execution.len (e : Execution) : Nat :=
  e.transitions.length

/-- `Execution::get(index)` (source, mod.rs lines 69–74). -/
def Execution.get (e : Execution) (index : Nat) : Except String Transition :=
  match e.transitions.get? index with
  | some p => Except.ok p.2
  | none =>
    Except.error
      ("Transition index " ++ toString index ++
        " out of bounds in the execution object")

/-- `Execution::peek` (source, mod.rs lines 77–79): `self.get(self.len() - 1)`
with `usize` subtraction. -/
def Execution.peek (e : Execution) : Except String Transition :=
  e.get (usizeSub e.len 1)

/-- `Execution::pop` (source, mod.rs lines 87–92): `IndexMap::pop` removes
and returns the last entry. -/
def Execution.pop (e : Execution) : Except String (Transition × Execution) :=
  match e.transitions.getLast? with
  | some p => Except.ok (p.2, ⟨e.edition, e.transitions.dropLast⟩)
  | none => Except.error "Cannot pop a transition from an empty execution object"

/-! ## Theorems -/

instance : Fact (Nat.Prime 11) := ⟨by norm_num⟩

/-- C1 (counterexample): at the mode pair `(Constant, Public)` the first
operand is `Constant`, yet the division resource count is `Count(0,0,3,5)`
and not `Count(1,0,0,0)`: the claim's "either operand is Constant" clause
fails — the count depends only on the divisor's mode. -/
theorem div_count_constant_public_counterexample :
    div_count (Mode.Constant, Mode.Public) = Count.is 0 0 3 5 ∧
      div_count (Mode.Constant, Mode.Public) ≠ Count.is 1 0 0 0 := by
  decide

/-- C1 (amended): the division resource count is `Count(1,0,0,0)` exactly
when the divisor (second operand) is `Constant`, and `Count(0,0,3,5)` for
every mode pair whose divisor is not `Constant`. -/
theorem div_count_spec (m₁ m₂ : Mode) :
    div_count (m₁, m₂) =
      if m₂ = Mode.Constant then Count.is 1 0 0 0 else Count.is 0 0 3 5 := by
  cases m₁ <;> cases m₂ <;> decide

/-- C2: for any operand modes and any backend state, when the divisor's
native value is non-zero, division synthesizes a result whose ejected native
value is the exact native field quotient `self / other`. -/
theorem div_assign_value_correct {F : Type} [Field F] [DecidableEq F]
    (self other : FieldElt F) (s : CircuitState)
    (h : other.eject_value ≠ 0) :
    ∃ q s', div_assign self other s = SynthResult.done q s' ∧
      q.eject_value = self.eject_value / other.eject_value := by
  have h' : other.value ≠ 0 := h
  by_cases hc : other.is_constant
  · simp [div_assign, hc, h', inverseConstant, mulAssignConstant,
      FieldElt.eject_value, div_eq_mul_inv]
  · simp [div_assign, hc, h', witnessQuotient, enforceMulEq, assertNonzero,
      FieldElt.eject_value]

/-- C2 (witness): `Public 6 / Public 3 = 2` over `ZMod 11`. -/
theorem div_assign_value_correct_witness :
    (FieldElt.eject_value (F := ZMod 11) ⟨Mode.Public, 3⟩ ≠ 0) ∧
    ∃ q s',
      div_assign (⟨Mode.Public, 6⟩ : FieldElt (ZMod 11)) ⟨Mode.Public, 3⟩
          CircuitState.init = SynthResult.done q s' ∧
        q.eject_value =
          FieldElt.eject_value (F := ZMod 11) ⟨Mode.Public, 6⟩ /
            FieldElt.eject_value (F := ZMod 11) ⟨Mode.Public, 3⟩ :=
  ⟨by decide, div_assign_value_correct ⟨Mode.Public, 6⟩ ⟨Mode.Public, 3⟩
    CircuitState.init (by decide)⟩

/-- C3: dividing any field element by a `Constant` divisor whose native
value is zero is a fatal halt (`E::halt`, the non-recoverable channel), with
the source's diagnostic, for every mode of the dividend and every backend
state. -/
theorem div_assign_constant_zero_halts {F : Type} [Field F] [DecidableEq F]
    (self : FieldElt F) (s : CircuitState) :
    div_assign self ⟨Mode.Constant, 0⟩ s =
      SynthResult.halted "Attempted to divide by zero." := by
  simp [div_assign, FieldElt.is_constant, Mode.is_constant,
    FieldElt.eject_value]

/-- C4: dividing by a non-constant divisor whose native value is zero does
not halt — a result element is produced and five constraints are registered —
but the resulting constraint system is unsatisfied. -/
theorem div_assign_nonconstant_zero_unsatisfied {F : Type} [Field F]
    [DecidableEq F] (self other : FieldElt F) (s : CircuitState)
    (h₁ : other.mode ≠ Mode.Constant) (h₂ : other.eject_value = 0) :
    ∃ q s', div_assign self other s = SynthResult.done q s' ∧
      s'.satisfied = false ∧
      s'.numConstraints = s.numConstraints + 5 := by
  have hc : other.is_constant = false := by
    unfold FieldElt.is_constant
    cases hm : other.mode
    · exact absurd hm h₁
    · rfl
    · rfl
  have h₂' : other.value = 0 := h₂
  refine ⟨(witnessQuotient self other (assertNonzero other s)).1,
    enforceMulEq (witnessQuotient self other (assertNonzero other s)).1 other
      self (witnessQuotient self other (assertNonzero other s)).2,
    by simp [div_assign, hc], ?_, ?_⟩
  · simp [enforceMulEq, witnessQuotient, assertNonzero, h₂',
      FieldElt.eject_value]
  · simp only [enforceMulEq, witnessQuotient, assertNonzero]

/-- C4 (witness): `Public 1 / Public 0` over `ZMod 11` synthesizes and the
system is unsatisfied. -/
theorem div_assign_nonconstant_zero_unsatisfied_witness :
    ((⟨Mode.Public, 0⟩ : FieldElt (ZMod 11)).mode ≠ Mode.Constant) ∧
    (FieldElt.eject_value (F := ZMod 11) ⟨Mode.Public, 0⟩ = 0) ∧
    ∃ q s',
      div_assign (⟨Mode.Public, 1⟩ : FieldElt (ZMod 11)) ⟨Mode.Public, 0⟩
          CircuitState.init = SynthResult.done q s' ∧
        s'.satisfied = false ∧
        s'.numConstraints = CircuitState.init.numConstraints + 5 :=
  ⟨by decide, by decide,
    div_assign_nonconstant_zero_unsatisfied ⟨Mode.Public, 1⟩ ⟨Mode.Public, 0⟩
      CircuitState.init (by decide) (by decide)⟩

/-- C5: the division output-mode predicate maps `(Constant, Constant)` to
`Constant`; maps `(Public, Constant c)` to `Public` exactly when `c = 1` and
to `Private` otherwise; maps every other mode combination to `Private`; and
the fatal-halt branch for a `(Public, Constant)` case not carrying the
concrete constant value is unreachable, because in the case type every
operand of mode `Constant` carries its value (last conjunct). -/
theorem div_output_mode_spec {F : Type} [Field F] [DecidableEq F] :
    (∀ a b : F,
      div_output_mode (CircuitType.Constant a, CircuitType.Constant b) =
        Except.ok Mode.Constant) ∧
    (∀ b : F,
      div_output_mode (CircuitType.Public, CircuitType.Constant b) =
        Except.ok (if b = 1 then Mode.Public else Mode.Private)) ∧
    (∀ c₁ c₂ : CircuitType F,
      ¬(c₁.mode = Mode.Constant ∧ c₂.mode = Mode.Constant) →
      ¬(c₁.mode = Mode.Public ∧ c₂.mode = Mode.Constant) →
      div_output_mode (c₁, c₂) = Except.ok Mode.Private) ∧
    (∀ c : CircuitType F,
      c.mode = Mode.Constant → ∃ v, c = CircuitType.Constant v) := by
  refine ⟨fun a b => rfl, fun b => ?_, fun c₁ c₂ h₁ h₂ => ?_, fun c hc => ?_⟩
  · by_cases hb : b = 1 <;> simp [div_output_mode, CircuitType.mode, hb]
  · cases c₁ <;> cases c₂ <;>
      simp_all [div_output_mode, CircuitType.mode]
  · cases c with
    | Constant v => exact ⟨v, rfl⟩
    | Public => simp [CircuitType.mode] at hc
    | Private => simp [CircuitType.mode] at hc

/-- C5 (witness): concrete evaluations of the output-mode predicate over
`ZMod 11`. -/
theorem div_output_mode_spec_witness :
    (div_output_mode (CircuitType.Constant (5 : ZMod 11),
        CircuitType.Constant 3) = Except.ok Mode.Constant) ∧
    (div_output_mode (CircuitType.Public,
        CircuitType.Constant (3 : ZMod 11)) = Except.ok Mode.Private) ∧
    (div_output_mode ((CircuitType.Private : CircuitType (ZMod 11)),
        CircuitType.Private) = Except.ok Mode.Private) ∧
    ∃ v, (CircuitType.Constant (7 : ZMod 11)) = CircuitType.Constant v := by
  refine ⟨div_output_mode_spec.1 5 3, ?_, ?_, ?_⟩
  · have h := div_output_mode_spec.2.1 (3 : ZMod 11)
    rw [h, if_neg (show ¬(3 : ZMod 11) = 1 by decide)]
  · exact div_output_mode_spec.2.2.1 CircuitType.Private CircuitType.Private
      (by decide) (by decide)
  · exact div_output_mode_spec.2.2.2 (CircuitType.Constant (7 : ZMod 11)) rfl

/-- C6: for every mode pair (whenever synthesis completes, i.e. excluding
the constant-zero-divisor halt), one division changes the backend tallies by
exactly the `Count` the `Metrics` predicate returns for that pair. -/
theorem div_count_conformance {F : Type} [Field F] [DecidableEq F]
    (self other : FieldElt F) (s : CircuitState)
    (h : other.mode = Mode.Constant → other.eject_value ≠ 0) :
    ∃ q s', div_assign self other s = SynthResult.done q s' ∧
      s'.numConstants =
        s.numConstants + (div_count (self.mode, other.mode)).numConstants ∧
      s'.numPublic =
        s.numPublic + (div_count (self.mode, other.mode)).numPublic ∧
      s'.numPrivate =
        s.numPrivate + (div_count (self.mode, other.mode)).numPrivate ∧
      s'.numConstraints =
        s.numConstraints + (div_count (self.mode, other.mode)).numConstraints := by
  by_cases hc : other.mode = Mode.Constant
  · have hz : other.value ≠ 0 := h hc
    refine ⟨mulAssignConstant self (inverseConstant other s).1.value,
      (inverseConstant other s).2, ?_, ?_⟩
    · simp [div_assign, FieldElt.is_constant, hc, Mode.is_constant,
        FieldElt.eject_value, hz]
    · cases hm : self.mode <;>
        simp [inverseConstant, div_count, hc, Count.is]
  · have hcb : other.is_constant = false := by
      unfold FieldElt.is_constant
      cases hm : other.mode
      · exact absurd hm hc
      · rfl
      · rfl
    refine ⟨(witnessQuotient self other (assertNonzero other s)).1,
      enforceMulEq (witnessQuotient self other (assertNonzero other s)).1
        other self (witnessQuotient self other (assertNonzero other s)).2,
      by simp [div_assign, hcb], ?_⟩
    have hcount : div_count (self.mode, other.mode) = Count.is 0 0 3 5 := by
      cases hm : self.mode <;> cases hm' : other.mode <;>
        simp_all [div_count]
    rw [hcount]
    simp [enforceMulEq, witnessQuotient, assertNonzero, Count.is]

/-- C6 (witness): `Private 6 / Private 3` over `ZMod 11` consumes exactly
`Count(0,0,3,5)`. -/
theorem div_count_conformance_witness :
    ((⟨Mode.Private, 3⟩ : FieldElt (ZMod 11)).mode = Mode.Constant →
      FieldElt.eject_value (F := ZMod 11) ⟨Mode.Private, 3⟩ ≠ 0) ∧
    ∃ q s',
      div_assign (⟨Mode.Private, 6⟩ : FieldElt (ZMod 11)) ⟨Mode.Private, 3⟩
          CircuitState.init = SynthResult.done q s' ∧
        s'.numConstants = CircuitState.init.numConstants +
          (div_count (Mode.Private, Mode.Private)).numConstants ∧
        s'.numPublic = CircuitState.init.numPublic +
          (div_count (Mode.Private, Mode.Private)).numPublic ∧
        s'.numPrivate = CircuitState.init.numPrivate +
          (div_count (Mode.Private, Mode.Private)).numPrivate ∧
        s'.numConstraints = CircuitState.init.numConstraints +
          (div_count (Mode.Private, Mode.Private)).numConstraints :=
  ⟨by decide, div_count_conformance ⟨Mode.Private, 6⟩ ⟨Mode.Private, 3⟩
    CircuitState.init (by decide)⟩

/-- C7: in the non-constant-divisor path, the quotient (the output element)
has native value `self / other` when the divisor's native value is non-zero,
and falls back to `self`'s own native value when the divisor's native value
is zero. -/
theorem div_assign_quotient_fallback {F : Type} [Field F] [DecidableEq F]
    (self other : FieldElt F) (s : CircuitState)
    (h : other.mode ≠ Mode.Constant) :
    ∃ q s', div_assign self other s = SynthResult.done q s' ∧
      (other.eject_value ≠ 0 →
        q.eject_value = self.eject_value / other.eject_value) ∧
      (other.eject_value = 0 → q.eject_value = self.eject_value) := by
  have hcb : other.is_constant = false := by
    unfold FieldElt.is_constant
    cases hm : other.mode
    · exact absurd hm h
    · rfl
    · rfl
  refine ⟨(witnessQuotient self other (assertNonzero other s)).1,
    enforceMulEq (witnessQuotient self other (assertNonzero other s)).1
      other self (witnessQuotient self other (assertNonzero other s)).2,
    by simp [div_assign, hcb], ?_, ?_⟩
  · intro hz
    have hz' : other.value ≠ 0 := hz
    simp [witnessQuotient, FieldElt.eject_value, hz']
  · intro hz
    have hz' : other.value = 0 := hz
    simp [witnessQuotient, FieldElt.eject_value, hz']

/-- C7 (witness): over `ZMod 11`, with a `Private` divisor, the quotient is
`6 / 3 = 2` for divisor `3`, and falls back to the dividend `6` for
divisor `0`. -/
theorem div_assign_quotient_fallback_witness :
    ((⟨Mode.Private, 3⟩ : FieldElt (ZMod 11)).mode ≠ Mode.Constant) ∧
    (∃ q s',
      div_assign (⟨Mode.Private, 6⟩ : FieldElt (ZMod 11)) ⟨Mode.Private, 3⟩
          CircuitState.init = SynthResult.done q s' ∧
        (FieldElt.eject_value (F := ZMod 11) ⟨Mode.Private, 3⟩ ≠ 0 →
          q.eject_value = FieldElt.eject_value (F := ZMod 11) ⟨Mode.Private, 6⟩ /
            FieldElt.eject_value (F := ZMod 11) ⟨Mode.Private, 3⟩) ∧
        (FieldElt.eject_value (F := ZMod 11) ⟨Mode.Private, 3⟩ = 0 →
          q.eject_value =
            FieldElt.eject_value (F := ZMod 11) ⟨Mode.Private, 6⟩)) ∧
    (∃ q s',
      div_assign (⟨Mode.Private, 6⟩ : FieldElt (ZMod 11)) ⟨Mode.Private, 0⟩
          CircuitState.init = SynthResult.done q s' ∧
        (FieldElt.eject_value (F := ZMod 11) ⟨Mode.Private, 0⟩ ≠ 0 →
          q.eject_value = FieldElt.eject_value (F := ZMod 11) ⟨Mode.Private, 6⟩ /
            FieldElt.eject_value (F := ZMod 11) ⟨Mode.Private, 0⟩) ∧
        (FieldElt.eject_value (F := ZMod 11) ⟨Mode.Private, 0⟩ = 0 →
          q.eject_value =
            FieldElt.eject_value (F := ZMod 11) ⟨Mode.Private, 6⟩)) :=
  ⟨by decide,
    div_assign_quotient_fallback ⟨Mode.Private, 6⟩ ⟨Mode.Private, 3⟩
      CircuitState.init (by decide),
    div_assign_quotient_fallback ⟨Mode.Private, 6⟩ ⟨Mode.Private, 0⟩
      CircuitState.init (by decide)⟩

/-- C10: all four binary division forms and both compound-assignment forms
agree: each binary form equals cloning the dividend and applying the
by-reference compound assignment (`div_ref_ref`), which is `div_assign`. -/
theorem div_forms_agree {F : Type} [Field F] [DecidableEq F]
    (a b : FieldElt F) (s : CircuitState) :
    div_val_val a b s = div_ref_ref a b s ∧
    div_val_ref a b s = div_ref_ref a b s ∧
    div_ref_val a b s = div_ref_ref a b s ∧
    div_assign_val a b s = div_assign a b s ∧
    div_ref_ref a b s = div_assign a b s :=
  ⟨rfl, rfl, rfl, rfl, rfl⟩

lemma indexMapInsert_fresh (m : List (Nat × Transition)) (k : Nat)
    (v : Transition) (h : ∀ p ∈ m, p.1 ≠ k) :
    indexMapInsert m k v = m ++ [(k, v)] := by
  have hany : m.any (fun p => p.1 = k) = false := by
    rw [List.any_eq_false]
    intro p hp
    simpa using h p hp
  simp [indexMapInsert, hany]

lemma collectByTransitionId_go (ts : List Transition) :
    ∀ m : List (Nat × Transition),
      (∀ t ∈ ts, ∀ p ∈ m, p.1 ≠ t.id) →
      List.Pairwise (fun a b => a.id ≠ b.id) ts →
      ts.foldl (fun acc t => indexMapInsert acc t.id t) m =
        m ++ ts.map (fun t => (t.id, t)) := by
  induction ts with
  | nil =>
    intro m _ _
    simp
  | cons t ts ih =>
    intro m hdisj hpw
    rw [List.pairwise_cons] at hpw
    rw [List.foldl_cons,
      indexMapInsert_fresh m t.id t (fun p hp => hdisj t (by simp) p hp)]
    have hdisj' : ∀ t' ∈ ts, ∀ p ∈ m ++ [(t.id, t)], p.1 ≠ t'.id := by
      intro t' ht' p hp
      rcases List.mem_append.mp hp with hm | hone
      · exact hdisj t' (List.mem_cons_of_mem _ ht') p hm
      · have hpe : p = (t.id, t) := by simpa using hone
        rw [hpe]
        exact hpw.1 t' ht'
    rw [ih (m ++ [(t.id, t)]) hdisj' hpw.2]
    simp

/-- C8: the failing accessors of `Execution` return recoverable errors on
the `Except` channel: `get` with an index at or beyond the length, `pop` on
an empty execution, and `peek` on an empty execution (whose `len() - 1`
wraps under `usize` semantics to an out-of-bounds index). -/
theorem execution_accessors_recoverable :
    (∀ (e : Execution) (i : Nat), e.len ≤ i → ∃ m, e.get i = Except.error m) ∧
    (∀ ed : Nat, Execution.pop ⟨ed, []⟩ =
      Except.error "Cannot pop a transition from an empty execution object") ∧
    (∀ ed : Nat, ∃ m, Execution.peek ⟨ed, []⟩ = Except.error m) := by
  refine ⟨fun e i hi => ?_, fun ed => rfl, fun ed => ?_⟩
  · have hnone : e.transitions[i]? = none := by
      rw [List.getElem?_eq_none_iff]
      exact hi
    exact ⟨"Transition index " ++ toString i ++
        " out of bounds in the execution object",
      by simp [Execution.get, hnone]⟩
  · refine ⟨"Transition index " ++ toString (usizeSub 0 1) ++
        " out of bounds in the execution object", ?_⟩
    simp [Execution.peek, Execution.get, Execution.len]

/-- C8 (witness): concrete failing accesses. -/
theorem execution_accessors_recoverable_witness :
    (Execution.len ⟨0, [(1, ⟨1, 0⟩)]⟩ ≤ 5) ∧
    (∃ m, Execution.get ⟨0, [(1, ⟨1, 0⟩)]⟩ 5 = Except.error m) ∧
    (Execution.pop ⟨7, []⟩ =
      Except.error "Cannot pop a transition from an empty execution object") ∧
    (∃ m, Execution.peek ⟨7, []⟩ = Except.error m) :=
  ⟨by decide,
    execution_accessors_recoverable.1 ⟨0, [(1, ⟨1, 0⟩)]⟩ 5 (by decide),
    execution_accessors_recoverable.2.1 7,
    execution_accessors_recoverable.2.2 7⟩

/-- C9: `Execution::from` rejects an empty transition list with a
recoverable error, rejects an edition differing from the network's edition
constant with a recoverable error, and otherwise (transition IDs being the
keys, hence pairwise distinct) returns an `Execution` holding exactly the
given transitions keyed by their IDs, with the given edition. -/
theorem execution_from_spec :
    (∀ net ed : Nat, Execution.from' net ed [] =
      Except.error
        "Execution cannot initialize from empty list of transitions") ∧
    (∀ (net ed : Nat) (ts : List Transition), ed ≠ net →
      ∃ m, Execution.from' net ed ts = Except.error m) ∧
    (∀ (net : Nat) (ts : List Transition), ts ≠ [] →
      List.Pairwise (fun a b => a.id ≠ b.id) ts →
      Execution.from' net net ts =
        Except.ok ⟨net, ts.map (fun t => (t.id, t))⟩) := by
  refine ⟨fun net ed => rfl, fun net ed ts hne => ?_, fun net ts hne hpw => ?_⟩
  · cases ts with
    | nil => exact ⟨_, rfl⟩
    | cons t ts =>
      refine ⟨"Execution cannot initialize with a different edition", ?_⟩
      simp [Execution.from', hne]
  · have hmap : collectByTransitionId ts = ts.map (fun t => (t.id, t)) := by
      have h := collectByTransitionId_go ts []
        (by intro t _ p hp; simp at hp) hpw
      simpa [collectByTransitionId] using h
    have hempty : ts.isEmpty = false := by
      cases ts with
      | nil => exact absurd rfl hne
      | cons t ts => rfl
    simp [Execution.from', hempty, hmap]

/-- C9 (witness): concrete constructions over small transition lists. -/
theorem execution_from_spec_witness :
    (Execution.from' 0 0 [] =
      Except.error
        "Execution cannot initialize from empty list of transitions") ∧
    ((1 : Nat) ≠ 0 ∧
      ∃ m, Execution.from' 0 1 [⟨1, 2⟩] = Except.error m) ∧
    (([⟨1, 2⟩] : List Transition) ≠ [] ∧
      List.Pairwise (fun a b => a.id ≠ b.id) ([⟨1, 2⟩] : List Transition) ∧
      Execution.from' 3 3 [⟨1, 2⟩] = Except.ok ⟨3, [(1, ⟨1, 2⟩)]⟩) :=
  ⟨execution_from_spec.1 0 0,
    ⟨by decide, execution_from_spec.2.1 0 1 [⟨1, 2⟩] (by decide)⟩,
    ⟨by simp, by simp, by
      have h := execution_from_spec.2.2 3 [⟨1, 2⟩] (by simp) (by simp)
      simpa using h⟩⟩

end SnarkVM
